import Mathlib

/-!
# Verification of the MCP Ticket Server

A shallow embedding in Lean 4 of the core of the MCP ticket-server
repository: the HTML-to-text normalization pipeline (both the lenient
variant of `PY_Scripts/clean_html.py` and the display variant of
`tools/ticket_cleaner.py`), the ticket-identifier parsing and the direct
lookup of `tools/get_ticket.py`, the semantic search of
`tools/search.py`, and the ingestion document assembly of
`PY_Scripts/clean_html.py` — together with theorems settling the
specification claims about them.

Modeling conventions:

* Python strings are `String` / `List Char`.  The regex classes `\d`,
  `[A-Za-z]`, `\s` are modeled over the ASCII range (`Char.isDigit`,
  `Char.isAlpha`, `isPySpace`); Python's `re` additionally accepts some
  non-ASCII characters in these classes, which no claim exercises.
* External collaborators are explicit inputs: the BeautifulSoup parse
  step is a function `String → Option Dom` (`none` models a parser
  exception), the ChromaDB collection is a function from query text and
  result count to an `Except`-valued reply, the PostgreSQL connection
  and query is an `Except`-valued row list, and
  `datetime.fromisoformat(...).year` is a function
  `String → Option Int`.
* Python exceptions are modeled with `Except`; a function whose body is
  wrapped in `try/except` becomes a total function from its modeled
  inputs.
-/

namespace TicketServer

/-! ## Character and string primitives -/

/-- Python's `\s` / `str.strip()` whitespace class (ASCII part):
space, tab, newline, carriage return, vertical tab, form feed. -/
def isPySpace (c : Char) : Bool :=
  c == ' ' || c == '\t' || c == '\n' || c == '\r' || c == '\x0b' || c == '\x0c'

/-- `str.strip()` on a character list: drop the whitespace prefix and
suffix. -/
def stripL (l : List Char) : List Char :=
  ((l.dropWhile isPySpace).reverse.dropWhile isPySpace).reverse

/-- `str.strip()`. -/
def pyStrip (s : String) : String := ⟨stripL s.data⟩

/-- Value of a digit string, as computed by Python `int` on a string of
ASCII digits. -/
def digitsToNat (l : List Char) : Nat :=
  l.foldl (fun a c => 10 * a + (c.toNat - '0'.toNat)) 0

/-! ## Identifier parsing (`tools/get_ticket.py`, `parse_ticket_id`)

The four anchored patterns are simple enough that Python's backtracking
matcher is deterministic on them: each quantified piece is followed by a
piece that cannot consume characters of the same class, so every
quantifier takes its maximal run.  Each pattern therefore becomes a
direct function on the character list. -/

/-- Pattern 1, `^(\d+)/[A-Za-z]*-?(\d{4})$` (e.g. `3906/SPC-2024`,
`3906/SPC2024`): a nonempty digit run, `/`, a (possibly empty) ASCII
letter run, an optional `-`, and exactly four digits. -/
def matchPattern1 (s : List Char) : Option (List Char × Nat) :=
  let num := s.takeWhile Char.isDigit
  if num = [] then none
  else
    match s.dropWhile Char.isDigit with
    | '/' :: rest =>
      match rest.dropWhile Char.isAlpha with
      | '-' :: y =>
        if y.length = 4 ∧ y.all Char.isDigit then some (num, digitsToNat y) else none
      | y =>
        if y.length = 4 ∧ y.all Char.isDigit then some (num, digitsToNat y) else none
    | _ => none

/-- Pattern 2, `^(\d+)/(\d{4})$` (e.g. `3906/2024`). -/
def matchPattern2 (s : List Char) : Option (List Char × Nat) :=
  let num := s.takeWhile Char.isDigit
  if num = [] then none
  else
    match s.dropWhile Char.isDigit with
    | '/' :: y =>
      if y.length = 4 ∧ y.all Char.isDigit then some (num, digitsToNat y) else none
    | _ => none

/-- Pattern 3, `^(\d+)-(\d{4})$` (e.g. `3906-2024`). -/
def matchPattern3 (s : List Char) : Option (List Char × Nat) :=
  let num := s.takeWhile Char.isDigit
  if num = [] then none
  else
    match s.dropWhile Char.isDigit with
    | '-' :: y =>
      if y.length = 4 ∧ y.all Char.isDigit then some (num, digitsToNat y) else none
    | _ => none

/-- Pattern 4, `^(\d+)$`: digits only; the year defaults to the current
calendar year at call time (passed in as `currentYear`). -/
def matchPattern4 (currentYear : Nat) (s : List Char) : Option (List Char × Nat) :=
  if s ≠ [] ∧ s.all Char.isDigit then some (s, currentYear) else none

/-- The fallback `re.search(r'(\d+)', ticket_id)`: the first maximal run
of digits anywhere in the string, if any digit exists. -/
def firstDigitRun : List Char → Option (List Char)
  | [] => none
  | c :: rest =>
    if c.isDigit then some (c :: rest.takeWhile Char.isDigit) else firstDigitRun rest

/-- `parse_ticket_id` (`tools/get_ticket.py` lines 136-188): strip the
input, try the four anchored patterns in priority order with
first-match-wins, then fall back to the first digit run anywhere with
the current year; raise `ValueError` (modeled as `none`) when nothing
matches.  `currentYear` models `datetime.now().year`. -/
def parse_ticket_id (currentYear : Nat) (ticket_id : List Char) : Option (List Char × Nat) :=
  let s := stripL ticket_id
  matchPattern1 s <|> matchPattern2 s <|> matchPattern3 s <|>
    matchPattern4 currentYear s <|> (firstDigitRun s).map (fun run => (run, currentYear))

/-! ### Lemmas about the identifier patterns -/

lemma digit_not_pySpace {c : Char} (h : c.isDigit = true) : isPySpace c = false := by
  by_contra hne
  rw [Bool.not_eq_false] at hne
  simp only [isPySpace, Bool.or_eq_true, beq_iff_eq, or_assoc] at hne
  rcases hne with h1 | h1 | h1 | h1 | h1 | h1 <;> subst h1 <;> exact absurd h (by decide)

lemma takeWhile_isDigit_eq_nil {s : List Char} (h : ∀ c ∈ s, c.isDigit = false) :
    s.takeWhile Char.isDigit = [] := by
  cases s with
  | nil => rfl
  | cons c t => simp [List.takeWhile_cons, h c (by simp)]

lemma firstDigitRun_eq_none_iff (s : List Char) :
    firstDigitRun s = none ↔ ∀ c ∈ s, c.isDigit = false := by
  induction s with
  | nil => simp [firstDigitRun]
  | cons c t ih =>
    by_cases h : c.isDigit
    · simp [firstDigitRun, h]
    · simp only [Bool.not_eq_true] at h
      simp [firstDigitRun, h, ih]

lemma matchPattern1_eq_none {s : List Char} (h : ∀ c ∈ s, c.isDigit = false) :
    matchPattern1 s = none := by
  simp [matchPattern1, takeWhile_isDigit_eq_nil h]

lemma matchPattern2_eq_none {s : List Char} (h : ∀ c ∈ s, c.isDigit = false) :
    matchPattern2 s = none := by
  simp [matchPattern2, takeWhile_isDigit_eq_nil h]

lemma matchPattern3_eq_none {s : List Char} (h : ∀ c ∈ s, c.isDigit = false) :
    matchPattern3 s = none := by
  simp [matchPattern3, takeWhile_isDigit_eq_nil h]

lemma matchPattern4_eq_none {cy : Nat} {s : List Char} (h : ∀ c ∈ s, c.isDigit = false) :
    matchPattern4 cy s = none := by
  cases s with
  | nil => simp [matchPattern4]
  | cons c t => simp [matchPattern4, h c (by simp)]

/-- C1: `parse_ticket_id`, applied to a trimmed non-empty string, tries
the four anchored patterns in the stated priority order with
first-match-wins, then falls back to the first run of digits anywhere in
the string paired with the current calendar year; `"3906"` yields
`("3906", currentYear)`, while `"3906/SPC-2024"`, `"3906/2024"` and
`"3906-2024"` all yield `("3906", 2024)`, and it fails with
`InvalidIdentifierFormat` (the `ValueError` of line 188, modeled as
`none`) exactly when the input contains no digit at all (e.g. `"abc"`). -/
theorem C1_parse_ticket_id (cy : Nat) :
    parse_ticket_id cy "3906".data = some ("3906".data, cy)
    ∧ parse_ticket_id cy "3906/SPC-2024".data = some ("3906".data, 2024)
    ∧ parse_ticket_id cy "3906/2024".data = some ("3906".data, 2024)
    ∧ parse_ticket_id cy "3906-2024".data = some ("3906".data, 2024)
    ∧ parse_ticket_id cy "abc".data = none
    ∧ (∀ s : List Char, stripL s = s →
        (parse_ticket_id cy s = none ↔ ∀ c ∈ s, c.isDigit = false))
    ∧ (∀ s r, stripL s = s → matchPattern1 s = some r → parse_ticket_id cy s = some r)
    ∧ (∀ s r, stripL s = s → matchPattern1 s = none → matchPattern2 s = some r →
        parse_ticket_id cy s = some r)
    ∧ (∀ s r, stripL s = s → matchPattern1 s = none → matchPattern2 s = none →
        matchPattern3 s = some r → parse_ticket_id cy s = some r)
    ∧ (∀ s r, stripL s = s → matchPattern1 s = none → matchPattern2 s = none →
        matchPattern3 s = none → matchPattern4 cy s = some r →
        parse_ticket_id cy s = some r)
    ∧ (∀ s run, stripL s = s → matchPattern1 s = none → matchPattern2 s = none →
        matchPattern3 s = none → matchPattern4 cy s = none → firstDigitRun s = some run →
        parse_ticket_id cy s = some (run, cy)) := by
  refine ⟨rfl, rfl, rfl, rfl, rfl, ?_, ?_, ?_, ?_, ?_, ?_⟩
  · intro s hs
    constructor
    · intro hp
      simp only [parse_ticket_id, hs, Option.orElse_eq_none, Option.map_eq_none'] at hp
      exact (firstDigitRun_eq_none_iff s).mp hp.2.2.2.2
    · intro h
      simp only [parse_ticket_id, hs, Option.orElse_eq_none, Option.map_eq_none']
      exact ⟨matchPattern1_eq_none h, matchPattern2_eq_none h, matchPattern3_eq_none h,
        matchPattern4_eq_none h, (firstDigitRun_eq_none_iff s).mpr h⟩
  · intro s r hs h1
    simp [parse_ticket_id, hs, h1]
  · intro s r hs h1 h2
    simp [parse_ticket_id, hs, h1, h2]
  · intro s r hs h1 h2 h3
    simp [parse_ticket_id, hs, h1, h2, h3]
  · intro s r hs h1 h2 h3 h4
    simp [parse_ticket_id, hs, h1, h2, h3, h4]
  · intro s run hs h1 h2 h3 h4 h5
    simp [parse_ticket_id, hs, h1, h2, h3, h4, h5]

/-- Witness for C1: the fallback clause applied at the concrete input
`"ab12cd34"`, whose first digit run is `"12"`, with current year 2025. -/
theorem C1_parse_ticket_id_witness :
    parse_ticket_id 2025 "ab12cd34".data = some ("12".data, 2025) :=
  (C1_parse_ticket_id 2025).2.2.2.2.2.2.2.2.2.2 "ab12cd34".data "12".data
    (by decide) (by decide) (by decide) (by decide) (by decide) (by decide)

/-! ## HTML tree model

A parsed BeautifulSoup document, in first-child / next-sibling form (so
that every traversal is a plain structural recursion): `nil` is the end
of a sibling chain, `text s next` a `NavigableString`, and
`elem tag classes children next` a tag element carrying its `class`
attribute as a list of class names. -/

inductive Dom where
  | nil : Dom
  | text : String → Dom → Dom
  | elem : String → List String → Dom → Dom → Dom
deriving DecidableEq

/-- All text segments (`NavigableString` descendants) of a node chain,
in document order. -/
def textSegs : Dom → List String
  | .nil => []
  | .text s k => s :: textSegs k
  | .elem _ _ ch k => textSegs ch ++ textSegs k

/-- The `get_text()` of a subtree (children chain `d`): concatenation of
all text segments. -/
def getText (d : Dom) : String := String.join (textSegs d)

/-- The `get_text(strip=True)` of a subtree: concatenation of the
individually stripped text segments. -/
def getTextStrip (d : Dom) : String := String.join ((textSegs d).map pyStrip)

/-- The children chains of all `li` descendant elements, in document
order (the result of `find_all('li')`). -/
def liChildren : Dom → List Dom
  | .nil => []
  | .text _ k => liChildren k
  | .elem tag _ ch k =>
    (if tag = "li" then [ch] else []) ++ liChildren ch ++ liChildren k

/-- The children chains of all `tr` descendant elements
(`find_all('tr')`). -/
def trChildren : Dom → List Dom
  | .nil => []
  | .text _ k => trChildren k
  | .elem tag _ ch k =>
    (if tag = "tr" then [ch] else []) ++ trChildren ch ++ trChildren k

/-- The children chains of all `td`/`th` descendant elements
(`find_all(['td', 'th'])`). -/
def cellChildren : Dom → List Dom
  | .nil => []
  | .text _ k => cellChildren k
  | .elem tag _ ch k =>
    (if tag = "td" ∨ tag = "th" then [ch] else []) ++ cellChildren ch ++ cellChildren k

/-! ## Lenient HTML normalizer (`PY_Scripts/clean_html.py`) -/

/-- List items of one `ul`/`ol` in lenient mode: the stripped text of
each `li`, empty items skipped (`clean_html.py` lines 24-28). -/
def lenientItems (ulCh : Dom) : List String :=
  ((liChildren ulCh).map getTextStrip).filter (fun t => t ≠ "")

/-- One table row in lenient mode (`clean_html.py` lines 38-43): rows
with at least two cells contribute their non-empty cell texts joined
with `": "`; rows with fewer than two cells, or with no non-empty cell
text, contribute nothing. -/
def lenientRowText (rowCh : Dom) : Option String :=
  let cells := cellChildren rowCh
  if 2 ≤ cells.length then
    let cellTexts := (cells.map getTextStrip).filter (fun t => t ≠ "")
    if cellTexts ≠ [] then some (String.intercalate ": " cellTexts) else none
  else none

/-- All row contributions of one table in lenient mode. -/
def lenientTableTexts (tableCh : Dom) : List String :=
  (trChildren tableCh).filterMap lenientRowText

/-- The `ul`/`ol` pass of the lenient normalizer (`clean_html.py` lines
23-33): replace each list element having at least one non-empty item
with the sentence `"I punti sono: item1, ..., itemN."`.  A list whose
items are all empty is left in place (and then no nested list inside it
can have items either, so recursing into it is a no-op, matching
BeautifulSoup's in-place iteration). -/
def replaceListsL : Dom → Dom
  | .nil => .nil
  | .text s k => .text s (replaceListsL k)
  | .elem tag cls ch k =>
    if tag = "ul" ∨ tag = "ol" then
      let items := lenientItems ch
      if items ≠ [] then
        .text ("I punti sono: " ++ String.intercalate ", " items ++ ".") (replaceListsL k)
      else .elem tag cls (replaceListsL ch) (replaceListsL k)
    else .elem tag cls (replaceListsL ch) (replaceListsL k)

/-- The `table` pass of the lenient normalizer (`clean_html.py` lines
36-47): replace each table having at least one contributing row with the
row texts joined by `". "` plus a trailing period. -/
def replaceTablesL : Dom → Dom
  | .nil => .nil
  | .text s k => .text s (replaceTablesL k)
  | .elem tag cls ch k =>
    if tag = "table" then
      let tt := lenientTableTexts ch
      if tt ≠ [] then
        .text (String.intercalate ". " tt ++ ".") (replaceTablesL k)
      else .elem tag cls (replaceTablesL ch) (replaceTablesL k)
    else .elem tag cls (replaceTablesL ch) (replaceTablesL k)

/-- `re.sub(r'\s+', ' ', text)`: collapse every maximal whitespace run
to a single space. -/
def collapseWS : List Char → List Char
  | [] => []
  | [c] => if isPySpace c then [' '] else [c]
  | c :: d :: rest =>
    if isPySpace c then
      if isPySpace d then collapseWS (d :: rest) else ' ' :: collapseWS (d :: rest)
    else c :: collapseWS (d :: rest)

/-- Scanner for `re.sub(r'\n\s*\n', '\n\n', text)`: walk the whitespace
prefix of `l` and return the suffix just after the last newline in it
(the greedy `\s*` backtracks to the last `'\n'`), or `none` when the
whitespace prefix contains no newline. -/
def nlScan : List Char → Option (List Char) → Option (List Char)
  | [], acc => acc
  | c :: rest, acc =>
    if isPySpace c then nlScan rest (if c = '\n' then some rest else acc) else acc

lemma nlScan_length :
    ∀ (l : List Char) (acc r : List Char), nlScan l (some acc) = some r →
      r.length ≤ l.length ∨ acc = r := by
  intro l
  induction l with
  | nil =>
    intro acc r h
    simp only [nlScan, Option.some_inj] at h
    exact Or.inr h
  | cons c rest ih =>
    intro acc r h
    simp only [nlScan] at h
    by_cases hc : isPySpace c
    · rw [if_pos hc] at h
      by_cases hn : c = '\n'
      · rw [if_pos hn] at h
        rcases ih rest r h with h' | h'
        · exact Or.inl (Nat.le_succ_of_le h')
        · exact Or.inl (h' ▸ Nat.le_succ _)
      · rw [if_neg hn] at h
        rcases ih acc r h with h' | h'
        · exact Or.inl (Nat.le_succ_of_le h')
        · exact Or.inr h'
    · rw [if_neg hc, Option.some_inj] at h
      exact Or.inr h

lemma nlScan_none_length :
    ∀ (l : List Char) (r : List Char), nlScan l none = some r → r.length ≤ l.length := by
  intro l
  induction l with
  | nil => intro r h; simp [nlScan] at h
  | cons c rest ih =>
    intro r h
    simp only [nlScan] at h
    by_cases hc : isPySpace c
    · rw [if_pos hc] at h
      by_cases hn : c = '\n'
      · rw [if_pos hn] at h
        rcases nlScan_length rest rest r h with h' | h'
        · exact Nat.le_succ_of_le h'
        · exact h' ▸ Nat.le_succ _
      · rw [if_neg hn] at h
        exact Nat.le_succ_of_le (ih r h)
    · rw [if_neg hc] at h
      exact absurd h (by simp)

/-- `re.sub(r'\n\s*\n', '\n\n', text)` (`clean_html.py` line 54): at a
newline, if the following whitespace run contains another newline, the
match (up to that last newline) is replaced by two newlines and scanning
resumes after it; otherwise the newline is kept. -/
def subNL (l : List Char) : List Char :=
  match l with
  | [] => []
  | c :: rest =>
    if c = '\n' then
      match h : nlScan rest none with
      | some rest2 => '\n' :: '\n' :: subNL rest2
      | none => '\n' :: subNL rest
    else c :: subNL rest
termination_by l.length
decreasing_by
  · exact Nat.lt_succ_of_le (nlScan_none_length rest rest2 h)
  · exact Nat.lt_succ_self _
  · exact Nat.lt_succ_self _

namespace CleanHtml

/-- `clean_html_content` of `PY_Scripts/clean_html.py` (lines 14-57),
the lenient variant: empty input yields `""`; otherwise the markup is
parsed (`parse` models `BeautifulSoup(·, 'html.parser')`; `none` models
a parser exception, which this variant does not catch, hence the
`Except` result), lists and tables are rewritten to natural-language
text, all text is extracted, whitespace runs are collapsed, and the
result is stripped. -/
def clean_html_content (parse : String → Option Dom) (html_content : String) :
    Except String String :=
  if html_content = "" then .ok ""
  else
    match parse html_content with
    | none => .error "exception from BeautifulSoup propagates"
    | some soup =>
      let soup1 := replaceListsL soup
      let soup2 := replaceTablesL soup1
      let text := getText soup2
      let t1 := collapseWS text.data
      let t2 := subNL t1
      .ok ⟨stripL t2⟩

end CleanHtml

/-! ### Whitespace-normalization lemmas

The specification describes the lenient cleanup of markup-free text as
"runs of whitespace collapsed to a single space and leading/trailing
whitespace stripped".  `wordsOf`/`joinWords` formalize that wording
independently of the code's `re.sub` + `strip` sequence; the two are
proved equal. -/

/-- The maximal non-whitespace runs ("words") of a character list, in
order. -/
def wordsOf : List Char → List (List Char)
  | [] => []
  | [c] => if isPySpace c then [] else [[c]]
  | c :: d :: rest =>
    if isPySpace c then wordsOf (d :: rest)
    else
      if isPySpace d then [c] :: wordsOf rest
      else
        match wordsOf (d :: rest) with
        | [] => [[c]]
        | w :: ws => (c :: w) :: ws

/-- Join words with single spaces. -/
def joinWords : List (List Char) → List Char
  | [] => []
  | [w] => w
  | w :: v :: ws => w ++ ' ' :: joinWords (v :: ws)

/-- The claim's wording of whitespace normalization: collapse every
whitespace run to one space and strip both ends — equivalently, the
words joined by single spaces. -/
def wsNormalize (s : String) : String := ⟨joinWords (wordsOf s.data)⟩

/-- `str.rstrip()`: drop the trailing whitespace run. -/
def rstripL (l : List Char) : List Char := (l.reverse.dropWhile isPySpace).reverse

lemma collapseWS_cons_of_nonws {c : Char} (rest : List Char) (h : isPySpace c = false) :
    collapseWS (c :: rest) = c :: collapseWS rest := by
  cases rest <;> simp [collapseWS, h]

lemma collapseWS_cons_of_ws :
    ∀ (rest : List Char) {c : Char}, isPySpace c = true →
      collapseWS (c :: rest) = ' ' :: collapseWS (rest.dropWhile isPySpace) := by
  intro rest
  induction rest with
  | nil => intro c h; simp [collapseWS, h]
  | cons d r ih =>
    intro c h
    by_cases hd : isPySpace d
    · rw [List.dropWhile_cons, if_pos hd, ← ih hd]
      simp [collapseWS, h, hd]
    · simp only [Bool.not_eq_true] at hd
      rw [List.dropWhile_cons, if_neg (by simp [hd])]
      simp [collapseWS, h, hd]

lemma stripL_cons_of_ws {c : Char} (X : List Char) (h : isPySpace c = true) :
    stripL (c :: X) = stripL X := by
  simp [stripL, List.dropWhile_cons, h]

lemma stripL_eq_rstripL {c : Char} (X : List Char) (h : isPySpace c = false) :
    stripL (c :: X) = rstripL (c :: X) := by
  simp [stripL, rstripL, List.dropWhile_cons, h]

lemma rstripL_cons_of_nonws {c : Char} (X : List Char) (h : isPySpace c = false) :
    rstripL (c :: X) = c :: rstripL X := by
  simp only [rstripL, List.reverse_cons, List.dropWhile_append]
  by_cases he : (X.reverse.dropWhile isPySpace).isEmpty
  · rw [if_pos he]
    rw [List.isEmpty_iff] at he
    simp [he, List.dropWhile_cons, h]
  · rw [if_neg he]
    simp

lemma rstripL_cons_of_ne {x : Char} {X : List Char} (h : rstripL X ≠ []) :
    rstripL (x :: X) = x :: rstripL X := by
  simp only [rstripL, List.reverse_cons, List.dropWhile_append]
  have he : (X.reverse.dropWhile isPySpace).isEmpty = false := by
    cases hx : X.reverse.dropWhile isPySpace with
    | nil => exact absurd (by simp [rstripL, hx]) h
    | cons a t => rfl
  rw [he]
  simp

lemma wordsOf_cons_of_ws {c : Char} (rest : List Char) (h : isPySpace c = true) :
    wordsOf (c :: rest) = wordsOf rest := by
  cases rest <;> simp [wordsOf, h]

lemma wordsOf_dropWhile (l : List Char) :
    wordsOf (l.dropWhile isPySpace) = wordsOf l := by
  induction l with
  | nil => rfl
  | cons c rest ih =>
    by_cases h : isPySpace c
    · rw [List.dropWhile_cons, if_pos h, ih, wordsOf_cons_of_ws rest h]
    · rw [List.dropWhile_cons, if_neg h]

lemma all_ws_of_wordsOf_eq_nil : ∀ l : List Char, wordsOf l = [] → ∀ c ∈ l, isPySpace c = true
  | [] => by intro _ c hc; cases hc
  | [a] => by
    intro h c hc
    by_cases ha : isPySpace a
    · rcases List.mem_singleton.mp hc with rfl
      exact ha
    · simp [wordsOf, ha] at h
  | a :: b :: rest => by
    intro h c hc
    by_cases ha : isPySpace a
    · rw [wordsOf_cons_of_ws _ ha] at h
      rcases List.mem_cons.mp hc with rfl | hc2
      · exact ha
      · exact all_ws_of_wordsOf_eq_nil (b :: rest) h c hc2
    · exfalso
      by_cases hb : isPySpace b
      · simp [wordsOf, ha, hb] at h
      · simp only [wordsOf, if_neg ha, if_neg hb] at h
        revert h
        cases wordsOf (b :: rest) <;> simp

lemma collapseWS_of_all_ws :
    ∀ l : List Char, l ≠ [] → (∀ c ∈ l, isPySpace c = true) → collapseWS l = [' ']
  | [] => by intro h; exact absurd rfl h
  | [a] => by
    intro _ h
    simp [collapseWS, h a (by simp)]
  | a :: b :: rest => by
    intro _ h
    have ha := h a (by simp)
    have hb := h b (by simp)
    rw [collapseWS, if_pos ha, if_pos hb]
    exact collapseWS_of_all_ws (b :: rest) (by simp) (fun c hc => h c (by simp [hc]))

lemma ne_nil_of_mem_wordsOf : ∀ (l : List Char) (w : List Char), w ∈ wordsOf l → w ≠ []
  | [] => by intro w hw; simp [wordsOf] at hw
  | [a] => by
    intro w hw
    by_cases ha : isPySpace a
    · simp [wordsOf, ha] at hw
    · simp only [wordsOf, if_neg ha, List.mem_singleton] at hw
      simp [hw]
  | a :: b :: rest => by
    intro w hw
    by_cases ha : isPySpace a
    · rw [wordsOf_cons_of_ws _ ha] at hw
      exact ne_nil_of_mem_wordsOf (b :: rest) w hw
    · by_cases hb : isPySpace b
      · simp only [wordsOf, if_neg ha, if_pos hb, List.mem_cons] at hw
        rcases hw with rfl | hw
        · simp
        · exact ne_nil_of_mem_wordsOf rest w hw
      · simp only [wordsOf, if_neg ha, if_neg hb] at hw
        revert hw
        cases hwr : wordsOf (b :: rest) with
        | nil => intro hw; rcases List.mem_singleton.mp hw with rfl; simp
        | cons w0 ws0 =>
          intro hw
          rcases List.mem_cons.mp hw with rfl | hw
          · simp
          · exact ne_nil_of_mem_wordsOf (b :: rest) w (hwr ▸ List.mem_cons_of_mem w0 hw)

lemma wordsOf_ne_nil {d : Char} (rest : List Char) (hd : isPySpace d = false) :
    wordsOf (d :: rest) ≠ [] := by
  cases rest with
  | nil => simp [wordsOf, hd]
  | cons e r =>
    by_cases he : isPySpace e
    · simp [wordsOf, hd, he]
    · simp only [Bool.not_eq_true] at he
      cases hwr : wordsOf (e :: r) with
      | nil => simp [wordsOf, hd, he, hwr]
      | cons w ws => simp [wordsOf, hd, he, hwr]

lemma dropWhile_head_not_ws :
    ∀ (l : List Char) (a : Char) (t : List Char), l.dropWhile isPySpace = a :: t →
      isPySpace a = false := by
  intro l
  induction l with
  | nil => intro a t h; simp at h
  | cons c r ih =>
    intro a t h
    by_cases hc : isPySpace c
    · rw [List.dropWhile_cons, if_pos hc] at h
      exact ih a t h
    · rw [List.dropWhile_cons, if_neg hc] at h
      rcases h with ⟨rfl, rfl⟩
      simpa using hc

lemma joinWords_cons_cons (c : Char) (w : List Char) (ws : List (List Char)) :
    joinWords ((c :: w) :: ws) = c :: joinWords (w :: ws) := by
  cases ws <;> simp [joinWords]

lemma joinWords_ne_nil {w : List Char} (ws : List (List Char)) (hw : w ≠ []) :
    joinWords (w :: ws) ≠ [] := by
  cases ws with
  | nil => simpa [joinWords] using hw
  | cons v ws' => simp [joinWords, hw]

/-- The code's cleanup (`re.sub(r'\s+', ' ')` followed by `strip()`)
computes exactly the words joined by single spaces. -/
theorem stripL_collapseWS : ∀ l : List Char, stripL (collapseWS l) = joinWords (wordsOf l)
  | [] => by simp [collapseWS, wordsOf, joinWords, stripL]
  | c :: rest => by
    by_cases hc : isPySpace c
    · rw [collapseWS_cons_of_ws rest hc, stripL_cons_of_ws _ (by decide),
        wordsOf_cons_of_ws rest hc, ← wordsOf_dropWhile rest]
      exact stripL_collapseWS (rest.dropWhile isPySpace)
    · simp only [Bool.not_eq_true] at hc
      cases rest with
      | nil => simp [collapseWS, wordsOf, joinWords, stripL, hc]
      | cons d r =>
        rw [collapseWS_cons_of_nonws _ hc, stripL_eq_rstripL _ hc, rstripL_cons_of_nonws _ hc]
        by_cases hd : isPySpace d
        · rw [collapseWS_cons_of_ws r hd]
          cases hwr : wordsOf r with
          | nil =>
            have hall := all_ws_of_wordsOf_eq_nil r hwr
            by_cases hr : r = []
            · subst hr
              have h1 : rstripL (' ' :: collapseWS (List.dropWhile isPySpace [])) =
                  ([] : List Char) := by rfl
              rw [h1]
              simp [wordsOf, joinWords, hc, hd]
            · rw [List.dropWhile_eq_nil_iff.mpr (fun c hcm => by simp [hall c hcm])]
              have h1 : rstripL (' ' :: collapseWS ([] : List Char)) = ([] : List Char) := by
                rfl
              rw [h1]
              simp [wordsOf, joinWords, hc, hd, hwr]
          | cons w ws =>
            have hafter : r.dropWhile isPySpace ≠ [] := by
              intro hnil
              rw [← wordsOf_dropWhile r, hnil] at hwr
              simp [wordsOf] at hwr
            obtain ⟨a, t, hat⟩ := List.exists_cons_of_ne_nil hafter
            have hans : isPySpace a = false := dropWhile_head_not_ws r a t hat
            have hih : stripL (collapseWS (r.dropWhile isPySpace)) = joinWords (wordsOf r) := by
              rw [stripL_collapseWS (r.dropWhile isPySpace), wordsOf_dropWhile r]
            rw [hat, collapseWS_cons_of_nonws _ hans] at hih ⊢
            rw [stripL_eq_rstripL _ hans] at hih
            have hne : rstripL (a :: collapseWS t) ≠ [] := by
              rw [hih, hwr]
              exact joinWords_ne_nil ws (ne_nil_of_mem_wordsOf r w (hwr ▸ List.mem_cons_self w ws))
            rw [rstripL_cons_of_ne hne, hih, hwr]
            simp [wordsOf, joinWords, hc, hd, hwr]
        · simp only [Bool.not_eq_true] at hd
          have hih : stripL (collapseWS (d :: r)) = joinWords (wordsOf (d :: r)) :=
            stripL_collapseWS (d :: r)
          rw [collapseWS_cons_of_nonws _ hd, stripL_eq_rstripL _ hd] at hih
          rw [collapseWS_cons_of_nonws _ hd, hih]
          obtain ⟨w, ws, hws⟩ := List.exists_cons_of_ne_nil (wordsOf_ne_nil r hd)
          rw [hws]
          simp [wordsOf, hc, hd, hws, joinWords_cons_cons]
  termination_by l => l.length
  decreasing_by
  all_goals simp only [List.length_cons]
  all_goals first
    | exact Nat.lt_succ_of_le ((List.dropWhile_sublist _).length_le)
    | exact Nat.lt_succ_of_le (Nat.le_succ_of_le ((List.dropWhile_sublist _).length_le))
    | exact Nat.lt_succ_self _

lemma newline_not_mem_collapseWS : ∀ l : List Char, '\n' ∉ collapseWS l
  | [] => by simp [collapseWS]
  | [c] => by
    by_cases h : isPySpace c
    · simp [collapseWS, h]
    · simp only [Bool.not_eq_true] at h
      simp only [collapseWS, h, Bool.false_eq_true, if_false, List.mem_singleton]
      intro hh
      rw [← hh] at h
      exact absurd h (by decide)
  | c :: d :: rest => by
    by_cases hcw : isPySpace c
    · by_cases hdw : isPySpace d
      · simpa [collapseWS, hcw, hdw] using newline_not_mem_collapseWS (d :: rest)
      · have hr := newline_not_mem_collapseWS (d :: rest)
        simp [collapseWS, hcw, hdw, hr]
    · have hr := newline_not_mem_collapseWS (d :: rest)
      simp only [Bool.not_eq_true] at hcw
      simp only [collapseWS, hcw, Bool.false_eq_true, if_false, List.mem_cons]
      rintro (hh | hh)
      · rw [← hh] at hcw
        exact absurd hcw (by decide)
      · exact hr hh

lemma subNL_cons_of_ne {c : Char} (rest : List Char) (h : ¬ c = '\n') :
    subNL (c :: rest) = c :: subNL rest := by
  rw [subNL.eq_def]
  simp [h]

lemma subNL_of_no_newline (l : List Char) (h : '\n' ∉ l) : subNL l = l := by
  induction l with
  | nil => rw [subNL.eq_def]
  | cons c rest ih =>
    have hc : ¬ c = '\n' := fun he => h (by rw [he]; exact List.mem_cons_self _ _)
    rw [subNL_cons_of_ne rest hc, ih (fun hm => h (List.mem_cons_of_mem c hm))]

/-- Evaluation form of the lenient normalizer: on its actual inputs the
`re.sub(r'\n\s*\n', '\n\n')` step is the identity, because the preceding
`re.sub(r'\s+', ' ')` has already removed every newline. -/
lemma clean_html_content_lenient_eval (parse : String → Option Dom) (html_content : String) :
    CleanHtml.clean_html_content parse html_content =
      if html_content = "" then .ok ""
      else
        match parse html_content with
        | none => .error "exception from BeautifulSoup propagates"
        | some soup =>
          .ok ⟨stripL (collapseWS (getText (replaceTablesL (replaceListsL soup))).data)⟩ := by
  unfold CleanHtml.clean_html_content
  by_cases h : html_content = ""
  · simp [h]
  · simp only [if_neg h]
    cases parse html_content with
    | none => rfl
    | some soup =>
      show Except.ok (String.mk (stripL (subNL (collapseWS
          (getText (replaceTablesL (replaceListsL soup))).data)))) =
        (Except.ok (String.mk (stripL (collapseWS
          (getText (replaceTablesL (replaceListsL soup))).data))) : Except String String)
      rw [subNL_of_no_newline _ (newline_not_mem_collapseWS _)]

/-- C9: round-trip — for every input string containing no HTML markup
(modeled as: the parser returns a pure text node holding the input),
lenient-mode `clean_html_content` returns the input unchanged except for
whitespace normalization (runs of whitespace collapsed to a single space
and leading/trailing whitespace stripped, formalized independently as
`wsNormalize`, the words of the input joined by single spaces). -/
theorem C9_roundtrip_no_markup (parse : String → Option Dom) (s : String)
    (h : parse s = some (Dom.text s Dom.nil)) :
    CleanHtml.clean_html_content parse s = .ok (wsNormalize s) := by
  by_cases hs : s = ""
  · subst hs
    simp [CleanHtml.clean_html_content, wsNormalize, wordsOf, joinWords]
  · rw [clean_html_content_lenient_eval, if_neg hs, h]
    show Except.ok (String.mk (stripL (collapseWS
        (getText (replaceTablesL (replaceListsL (Dom.text s Dom.nil)))).data))) =
      Except.ok (wsNormalize s)
    have h1 : replaceTablesL (replaceListsL (Dom.text s Dom.nil)) = Dom.text s Dom.nil := rfl
    rw [h1]
    have h3 : getText (Dom.text s Dom.nil) = s := by
      simp [getText, textSegs, String.join]
    rw [h3]
    simp only [wsNormalize, stripL_collapseWS]

/-- Witness for C9 at the markup-free input `"  ciao   mondo "`. -/
theorem C9_roundtrip_no_markup_witness :
    CleanHtml.clean_html_content (fun t => some (Dom.text t Dom.nil)) "  ciao   mondo " =
        .ok (wsNormalize "  ciao   mondo ")
      ∧ wsNormalize "  ciao   mondo " = "ciao mondo" :=
  ⟨C9_roundtrip_no_markup (fun t => some (Dom.text t Dom.nil)) "  ciao   mondo " rfl, rfl⟩

/-! ### Table normalization (C4)

Concrete tables are built from lists of cell strings. -/

/-- A chain of `td` cells, each holding one text node. -/
def cellsDom : List String → Dom
  | [] => .nil
  | c :: cs => .elem "td" [] (.text c .nil) (cellsDom cs)

/-- A chain of `tr` rows. -/
def rowsDom : List (List String) → Dom
  | [] => .nil
  | r :: rs => .elem "tr" [] (cellsDom r) (rowsDom rs)

/-- A `table` element over the given rows of cell texts. -/
def mkTable (rows : List (List String)) : Dom :=
  .elem "table" [] (rowsDom rows) .nil

/-- The row contribution as the source computes it, phrased on the list
of cell strings: a row with at least two cells and at least one
non-empty stripped cell text contributes the non-empty stripped cell
texts joined with `": "`. -/
def lenientRowSpec (r : List String) : Option String :=
  if 2 ≤ r.length then
    let ts := (r.map pyStrip).filter (fun t => t ≠ "")
    if ts ≠ [] then some (String.intercalate ": " ts) else none
  else none

/-- The row contribution as claim C4 states it: only rows with at least
two non-empty cells contribute, joining the cell texts with `": "`. -/
def claimedRowText (r : List String) : Option String :=
  let ts := (r.map pyStrip).filter (fun t => t ≠ "")
  if 2 ≤ ts.length then some (String.intercalate ": " ts) else none

lemma trChildren_cellsDom (r : List String) : trChildren (cellsDom r) = [] := by
  induction r with
  | nil => rfl
  | cons c cs ih => simp [cellsDom, trChildren, ih]

lemma cellChildren_cellsDom (r : List String) :
    cellChildren (cellsDom r) = r.map (fun c => Dom.text c Dom.nil) := by
  induction r with
  | nil => rfl
  | cons c cs ih => simp [cellsDom, cellChildren, ih]

lemma trChildren_rowsDom (rows : List (List String)) :
    trChildren (rowsDom rows) = rows.map cellsDom := by
  induction rows with
  | nil => rfl
  | cons r rs ih => simp [rowsDom, trChildren, trChildren_cellsDom, ih]

lemma getTextStrip_text (c : String) : getTextStrip (Dom.text c Dom.nil) = pyStrip c := by
  simp [getTextStrip, textSegs, String.join]

lemma map_getTextStrip_cells (r : List String) :
    (r.map (fun c => Dom.text c Dom.nil)).map getTextStrip = r.map pyStrip := by
  induction r with
  | nil => rfl
  | cons c cs ih => simp [ih, getTextStrip_text]

lemma lenientRowText_cellsDom (r : List String) :
    lenientRowText (cellsDom r) = lenientRowSpec r := by
  simp only [lenientRowText, lenientRowSpec, cellChildren_cellsDom, List.length_map,
    map_getTextStrip_cells]

/-- C4 (amended): in lenient-mode table normalization, exactly the table
rows with at least 2 cells of which at least one has non-empty stripped
text contribute output; each such row contributes its non-empty cell
texts joined with `": "`, the rows are joined with `". "`, and a
trailing period is appended; in particular the 2-row table
`[["A","1"],["B","2"]]` yields `"A: 1. B: 2."`. -/
theorem C4_table_normalization :
    (∀ rows : List (List String),
      lenientTableTexts (rowsDom rows) = rows.filterMap lenientRowSpec)
    ∧ CleanHtml.clean_html_content (fun _ => some (mkTable [["A", "1"], ["B", "2"]]))
        "<table>" = .ok "A: 1. B: 2." := by
  constructor
  · intro rows
    rw [lenientTableTexts, trChildren_rowsDom, List.filterMap_map]
    exact List.filterMap_congr (fun r _ => lenientRowText_cellsDom r)
  · rw [clean_html_content_lenient_eval]
    rfl

/-- Counterexample to C4 as stated: the row `["A", ""]` has two cells
but only one non-empty cell text, so under the claim it contributes
nothing; the code still emits `"A"` for it (the source guard at
`clean_html.py` line 40 counts cells, not non-empty cells), and the
whole cleanup of a table holding only that row yields `"A."`. -/
theorem C4_counterexample :
    lenientTableTexts (rowsDom [["A", ""]]) = ["A"]
    ∧ [["A", ""]].filterMap claimedRowText = []
    ∧ lenientTableTexts (rowsDom [["A", ""]]) ≠ [["A", ""]].filterMap claimedRowText
    ∧ CleanHtml.clean_html_content (fun _ => some (mkTable [["A", ""]])) "<table>" =
        .ok "A." := by
  refine ⟨rfl, rfl, by decide, ?_⟩
  rw [clean_html_content_lenient_eval]
  rfl

/-! ## Display HTML normalizer (`tools/ticket_cleaner.py`) -/

/-- Substring test (Python `in` on strings): does `pat` occur
contiguously in `l`? -/
def containsSub : List Char → List Char → Bool
  | [], pat => pat.isEmpty
  | c :: rest, pat => pat.isPrefixOf (c :: rest) || containsSub rest pat

/-- The quote-block condition of `ticket_cleaner.py` line 45: the
element has a non-empty class list and the text `"quote"` occurs in its
string rendering (equivalently, in one of the class names, since
`"quote"` cannot straddle the `"', '"` separators of `str(list)`). -/
def classQuote (cls : List String) : Bool :=
  cls.any (fun c => containsSub c.data "quote".data)

/-- One table row in display mode (`ticket_cleaner.py` lines 32-37):
rows with at least two cells and at least two non-empty cell texts
contribute `"label: value1 | value2"`. -/
def displayRowText (rowCh : Dom) : Option String :=
  let cells := cellChildren rowCh
  if 2 ≤ cells.length then
    match (cells.map getTextStrip).filter (fun t => t ≠ "") with
    | t0 :: t1 :: ts => some (t0 ++ ": " ++ String.intercalate " | " (t1 :: ts))
    | _ => none
  else none

/-- The `ul`/`ol` pass of the display normalizer (`ticket_cleaner.py`
lines 17-27): bulleted newline-delimited block. -/
def replaceListsD : Dom → Dom
  | .nil => .nil
  | .text s k => .text s (replaceListsD k)
  | .elem tag cls ch k =>
    if tag = "ul" ∨ tag = "ol" then
      let items := (((liChildren ch).map getTextStrip).filter (fun t => t ≠ "")).map
        (fun t => "• " ++ t)
      if items ≠ [] then
        .text ("\n" ++ String.intercalate "\n" items ++ "\n") (replaceListsD k)
      else .elem tag cls (replaceListsD ch) (replaceListsD k)
    else .elem tag cls (replaceListsD ch) (replaceListsD k)

/-- The `table` pass of the display normalizer (`ticket_cleaner.py`
lines 30-41). -/
def replaceTablesD : Dom → Dom
  | .nil => .nil
  | .text s k => .text s (replaceTablesD k)
  | .elem tag cls ch k =>
    if tag = "table" then
      let tt := (trChildren ch).filterMap displayRowText
      if tt ≠ [] then
        .text ("\n" ++ String.intercalate "\n" tt ++ "\n") (replaceTablesD k)
      else .elem tag cls (replaceTablesD ch) (replaceTablesD k)
    else .elem tag cls (replaceTablesD ch) (replaceTablesD k)

/-- The quote pass of the display normalizer (`ticket_cleaner.py` lines
44-48): any `blockquote`/`div` whose class matches and whose stripped
text is non-empty becomes `"\n> text\n"`. -/
def replaceQuotesD : Dom → Dom
  | .nil => .nil
  | .text s k => .text s (replaceQuotesD k)
  | .elem tag cls ch k =>
    if (tag = "blockquote" ∨ tag = "div") ∧ classQuote cls = true ∧ getTextStrip ch ≠ "" then
      .text ("\n> " ++ getTextStrip ch ++ "\n") (replaceQuotesD k)
    else .elem tag cls (replaceQuotesD ch) (replaceQuotesD k)

/-- The paragraph pass (`ticket_cleaner.py` lines 51-52): every `p`
becomes its text followed by a blank line. -/
def replacePD : Dom → Dom
  | .nil => .nil
  | .text s k => .text s (replacePD k)
  | .elem tag cls ch k =>
    if tag = "p" then .text (getText ch ++ "\n\n") (replacePD k)
    else .elem tag cls (replacePD ch) (replacePD k)

/-- The line-break pass (`ticket_cleaner.py` lines 55-56): every `br`
becomes a newline. -/
def replaceBrD : Dom → Dom
  | .nil => .nil
  | .text s k => .text s (replaceBrD k)
  | .elem tag cls ch k =>
    if tag = "br" then .text "\n" (replaceBrD k)
    else .elem tag cls (replaceBrD ch) (replaceBrD k)

/-- Space/tab class of `re.sub(r'[ \t]+', ' ')`. -/
def isSpTab (c : Char) : Bool := c == ' ' || c == '\t'

/-- `re.sub(r'[ \t]+', ' ', text)` (`ticket_cleaner.py` line 63). -/
def collapseSpTab : List Char → List Char
  | [] => []
  | [c] => if isSpTab c then [' '] else [c]
  | c :: d :: rest =>
    if isSpTab c then
      if isSpTab d then collapseSpTab (d :: rest) else ' ' :: collapseSpTab (d :: rest)
    else c :: collapseSpTab (d :: rest)

/-- `re.sub(r'\n{3,}', '\n\n', text)` (`ticket_cleaner.py` line 64):
keep at most two newlines per newline run.  `n` counts the newlines
already kept in the current run. -/
def nl3go : Nat → List Char → List Char
  | _, [] => []
  | n, c :: rest =>
    if c = '\n' then
      if n < 2 then '\n' :: nl3go (n + 1) rest else nl3go n rest
    else c :: nl3go 0 rest

/-- Resolution of one interior whitespace run for
`re.sub(r'^\s+|\s+$', '', text, flags=re.MULTILINE)`; `racc` holds the
run's characters in reverse.  Per the backtracking semantics of
`\s+$` rescanned inside the run: a run with no newline survives
verbatim, a run whose last newline is directly preceded by another
newline is deleted entirely, and any other run with a newline collapses
to a single newline. -/
def stripRun (racc : List Char) : List Char :=
  if racc.all (fun c => !(c == '\n')) then racc.reverse
  else
    match racc.dropWhile (fun c => !(c == '\n')) with
    | [] => racc.reverse
    | _ :: r2 =>
      match r2 with
      | '\n' :: _ => []
      | _ => ['\n']

/-- Scanner for the multiline edge-strip: `none` means not inside a
whitespace run; `some racc` carries the reversed run read so far.  A run
that reaches the end of the string is deleted (matched by `\s+$` at end
of input); an interior run is resolved by `stripRun`. -/
def slGo : Option (List Char) → List Char → List Char
  | none, [] => []
  | some _, [] => []
  | none, c :: rest =>
    if isPySpace c then slGo (some [c]) rest else c :: slGo none rest
  | some racc, c :: rest =>
    if isPySpace c then slGo (some (c :: racc)) rest
    else stripRun racc ++ c :: slGo none rest

/-- `re.sub(r'^\s+|\s+$', '', text, flags=re.MULTILINE)`
(`ticket_cleaner.py` line 65): the leading whitespace run is deleted
(anchored `^` at position 0), then interior and trailing runs are
resolved by the scanner. -/
def stripLines (l : List Char) : List Char := slGo none (l.dropWhile isPySpace)

/-- Python `str.replace(pat, repl)`: replace every non-overlapping
occurrence left to right. -/
def replaceAll (pat repl : List Char) : List Char → List Char := fun l =>
  match l with
  | [] => []
  | c :: rest =>
    if h : pat ≠ [] ∧ pat.isPrefixOf (c :: rest) then
      repl ++ replaceAll pat repl ((c :: rest).drop pat.length)
    else c :: replaceAll pat repl rest
termination_by l => l.length
decreasing_by
· simp only [List.length_drop, List.length_cons]
  have h1 : 1 ≤ pat.length := List.length_pos.mpr h.1
  omega
· simp

/-- The five entity decodes of `ticket_cleaner.py` lines 68-72, applied
in source order. -/
def applyEntities (l : List Char) : List Char :=
  replaceAll "&quot;".data "\"".data
    (replaceAll "&amp;".data "&".data
      (replaceAll "&gt;".data ">".data
        (replaceAll "&lt;".data "<".data
          (replaceAll "&nbsp;".data " ".data l))))

/-- Scanner for `re.sub(r'<o:p[^>]*>', '', text)` (`ticket_cleaner.py`
line 75): after a literal `<o:p`, consume up to a closing `>` and drop
the whole match; if the string ends first, everything read is emitted
literally (no later match can start inside it, since it contains no
further `>`). -/
def subOpGo : Option (List Char) → List Char → List Char
  | none, [] => []
  | some pend, [] => '<' :: 'o' :: ':' :: 'p' :: pend.reverse
  | none, '<' :: 'o' :: ':' :: 'p' :: rest => subOpGo (some []) rest
  | none, c :: rest => c :: subOpGo none rest
  | some _, '>' :: rest => subOpGo none rest
  | some pend, c :: rest => subOpGo (some (c :: pend)) rest

/-- Scanner for `re.sub(r'mso-[^;]+;?', '', text)` (`ticket_cleaner.py`
line 77): after a literal `mso-` followed by at least one non-`;`
character, drop everything up to and including the next `;` (or the end
of the string); a `mso-` directly followed by `;` or the end of input
does not match and is emitted literally. -/
def msoGo : Bool → List Char → List Char
  | true, [] => []
  | true, c :: rest => if c = ';' then msoGo false rest else msoGo true rest
  | false, [] => []
  | false, 'm' :: 's' :: 'o' :: '-' :: c :: r2 =>
    if c = ';' then 'm' :: msoGo false ('s' :: 'o' :: '-' :: c :: r2) else msoGo true r2
  | false, c :: rest => c :: msoGo false rest
termination_by _ l => l.length
decreasing_by all_goals (simp only [List.length_cons]; omega)

/-- Scanner for `re.sub(r'<[^>]+>', '', text)`: `some pend` means a `<`
has been read and `pend` holds the reversed characters after it; a
closing `>` with a non-empty body deletes the tag, `"<>"` is kept
literally, and an unterminated `<...` at end of input is emitted
literally (it can contain no `>`, so no later match is lost). -/
def stripTagsGo : Option (List Char) → List Char → List Char
  | none, [] => []
  | some pend, [] => '<' :: pend.reverse
  | none, c :: rest =>
    if c = '<' then stripTagsGo (some []) rest else c :: stripTagsGo none rest
  | some pend, c :: rest =>
    if c = '>' then
      if pend = [] then '<' :: '>' :: stripTagsGo none rest else stripTagsGo none rest
    else stripTagsGo (some (c :: pend)) rest

namespace TicketCleaner

/-- The `except` branch of `ticket_cleaner.py` lines 81-87: strip
`<[^>]+>` tags by pattern matching, collapse whitespace runs, strip. -/
def fallbackStrip (html_content : String) : String :=
  ⟨stripL (collapseWS (stripTagsGo none html_content.data))⟩

/-- `clean_html_content` of `tools/ticket_cleaner.py` (lines 4-87), the
display variant: empty or whitespace-only input (line 9) yields `""`;
the whole body is guarded by `try/except`, so a parser exception
(`parse · = none`) takes the tag-stripping fallback; otherwise lists,
tables, quote blocks, paragraphs and line breaks are rewritten, the text
is extracted, and the cleanup of lines 63-77 is applied. -/
def clean_html_content (parse : String → Option Dom) (html_content : String) : String :=
  if html_content = "" ∨ pyStrip html_content = "" then ""
  else
    match parse html_content with
    | none => fallbackStrip html_content
    | some soup =>
      let s1 := replaceListsD soup
      let s2 := replaceTablesD s1
      let s3 := replaceQuotesD s2
      let s4 := replacePD s3
      let s5 := replaceBrD s4
      let text := getText s5
      let t1 := collapseSpTab text.data
      let t2 := nl3go 0 t1
      let t3 := stripLines t2
      let t4 := applyEntities t3
      let t5 := subOpGo none t4
      let t6 := replaceAll "</o:p>".data [] t5
      let t7 := msoGo false t6
      ⟨stripL t7⟩

end TicketCleaner

/-- C2 (amended): the display variant `clean_html_content` of
`ticket_cleaner.py` never raises: empty or whitespace-only input yields
the empty string, and when HTML parsing fails it falls back to stripping
all tags by pattern matching and collapsing whitespace instead of
failing.  The lenient variant of `clean_html.py` also maps empty input
to the empty string and succeeds whenever parsing succeeds — but it has
no fallback: a parse failure propagates (see `C2_counterexample`). -/
theorem C2_normalizer_totality :
    (∀ (parse : String → Option Dom) (html : String), html = "" ∨ pyStrip html = "" →
      TicketCleaner.clean_html_content parse html = "")
    ∧ (∀ (parse : String → Option Dom) (html : String), parse html = none →
        ¬(html = "" ∨ pyStrip html = "") →
        TicketCleaner.clean_html_content parse html = TicketCleaner.fallbackStrip html)
    ∧ (∀ parse : String → Option Dom, CleanHtml.clean_html_content parse "" = .ok "")
    ∧ (∀ (parse : String → Option Dom) (html : String) (soup : Dom),
        parse html = some soup →
        ∃ out, CleanHtml.clean_html_content parse html = .ok out) := by
  refine ⟨?_, ?_, ?_, ?_⟩
  · intro parse html h
    unfold TicketCleaner.clean_html_content
    rw [if_pos h]
  · intro parse html hp h
    unfold TicketCleaner.clean_html_content
    rw [if_neg h, hp]
  · intro parse
    rfl
  · intro parse html soup hp
    by_cases hs : html = ""
    · exact ⟨"", by simp [CleanHtml.clean_html_content, hs]⟩
    · refine ⟨⟨stripL (collapseWS
        (getText (replaceTablesL (replaceListsL soup))).data)⟩, ?_⟩
      rw [clean_html_content_lenient_eval, if_neg hs, hp]

/-- Counterexample to C2 as stated: the lenient variant of
`clean_html.py` has no `try/except` around its BeautifulSoup call, so
when parsing the non-empty input `"<p"` fails the exception propagates
instead of any tag-stripping fallback being taken — contradicting the
claim that both variants never raise and fall back on parse failure. -/
theorem C2_counterexample :
    CleanHtml.clean_html_content (fun _ => none) "<p" =
      .error "exception from BeautifulSoup propagates"
    ∧ ∀ out, CleanHtml.clean_html_content (fun _ => none) "<p" ≠ .ok out := by
  refine ⟨rfl, ?_⟩
  intro out h
  rw [show CleanHtml.clean_html_content (fun _ => none) "<p" =
    .error "exception from BeautifulSoup propagates" from rfl] at h
  cases h

/-- Witness for C2 at concrete inputs: whitespace-only input to the
display variant, a failing parse on `"<b>ciao</b>"` (where the fallback
strips the tags to `"ciao"`), and a succeeding parse for the lenient
variant. -/
theorem C2_normalizer_totality_witness :
    TicketCleaner.clean_html_content (fun _ => none) "  " = ""
    ∧ TicketCleaner.clean_html_content (fun _ => none) "<b>ciao</b>" =
        TicketCleaner.fallbackStrip "<b>ciao</b>"
    ∧ TicketCleaner.fallbackStrip "<b>ciao</b>" = "ciao"
    ∧ ∃ out, CleanHtml.clean_html_content (fun t => some (Dom.text t Dom.nil)) "x" =
        .ok out :=
  ⟨C2_normalizer_totality.1 (fun _ => none) "  " (Or.inr rfl),
   C2_normalizer_totality.2.1 (fun _ => none) "<b>ciao</b>" rfl (by decide),
   rfl,
   C2_normalizer_totality.2.2.2 (fun t => some (Dom.text t Dom.nil)) "x"
     (Dom.text "x" Dom.nil) rfl⟩

/-! ## Python values, row dictionaries (`tools/get_ticket.py`,
`tools/ticket_cleaner.py`) -/

/-- Dynamically typed Python values as they occur in ticket rows: `str`,
`int`, `float` (modeled exactly as a rational), `decimal.Decimal`
(likewise), a date/datetime object carrying its `isoformat()` rendering,
and `None`. -/
inductive Val where
  | vstr : String → Val
  | vint : Int → Val
  | vfloat : ℚ → Val
  | vdec : ℚ → Val
  | vdate : String → Val
  | vnull : Val
deriving DecidableEq

/-- Python truthiness of a `Val`. -/
def pyTruthy : Val → Bool
  | .vstr s => s != ""
  | .vint n => n != 0
  | .vfloat q => q != 0
  | .vdec q => q != 0
  | .vdate _ => true
  | .vnull => false

/-- A Python `dict` with string keys, as an insertion-ordered
association list (keys unique in all rows the code builds). -/
abbrev Dict := List (String × Val)

/-- `d.get(key)` / `d[key]` on a row dictionary. -/
def dictGetV : Dict → String → Option Val
  | [], _ => none
  | (k, v) :: rest, key => if k = key then some v else dictGetV rest key

/-- `d[key] = v`: replace the value of an existing key in place,
appending the key at the end when absent (Python dict order). -/
def setItem : Dict → String → Val → Dict
  | [], key, v => [(key, v)]
  | (k, w) :: rest, key, v =>
    if k = key then (k, v) :: rest else (k, w) :: setItem rest key v

/-- The HTML cleanup applied to a row value: the display normalizer on a
string.  (`dt_testo` is a text column, so the truthy value reaching the
cleanup is a string; other constructors are returned unchanged.) -/
def cleanVal (parse : String → Option Dom) : Val → Val
  | .vstr s => .vstr (TicketCleaner.clean_html_content parse s)
  | v => v

/-- The per-entry body of `format_ticket_data` (`ticket_cleaner.py`
lines 97-105): copy the entry and clean `dt_testo` when present and
truthy. -/
def formatEntry (parse : String → Option Dom) (entry : Dict) : Dict :=
  match dictGetV entry "dt_testo" with
  | some v => if pyTruthy v then setItem entry "dt_testo" (cleanVal parse v) else entry
  | none => entry

/-- `format_ticket_data` of `tools/ticket_cleaner.py` (lines 90-107). -/
def format_ticket_data (parse : String → Option Dom) (ticket_data : List Dict) : List Dict :=
  ticket_data.map (formatEntry parse)

lemma setItem_keys :
    ∀ (d : Dict) (key : String) (w v : Val), dictGetV d key = some w →
      (setItem d key v).map Prod.fst = d.map Prod.fst := by
  intro d
  induction d with
  | nil => intro key w v h; simp [dictGetV] at h
  | cons p rest ih =>
    intro key w v h
    obtain ⟨k, u⟩ := p
    by_cases hk : k = key
    · simp [setItem, hk]
    · simp only [dictGetV, if_neg hk] at h
      simp [setItem, hk, ih key w v h]

lemma setItem_get_ne :
    ∀ (d : Dict) (key : String) (v : Val) (k' : String), k' ≠ key →
      dictGetV (setItem d key v) k' = dictGetV d k' := by
  intro d
  induction d with
  | nil =>
    intro key v k' h
    simp [setItem, dictGetV, Ne.symm h]
  | cons p rest ih =>
    intro key v k' h
    obtain ⟨k, u⟩ := p
    by_cases hk : k = key
    · subst hk
      simp [setItem, dictGetV, Ne.symm h]
    · simp only [setItem, if_neg hk]
      by_cases hk' : k = k'
      · simp [dictGetV, hk']
      · simp [dictGetV, hk', ih key v k' h]

lemma formatEntry_keys (parse : String → Option Dom) (entry : Dict) :
    (formatEntry parse entry).map Prod.fst = entry.map Prod.fst := by
  unfold formatEntry
  cases hv : dictGetV entry "dt_testo" with
  | none => rfl
  | some v =>
    by_cases ht : pyTruthy v
    · simp [ht, setItem_keys entry "dt_testo" v _ hv]
    · simp [ht]

lemma formatEntry_get_ne (parse : String → Option Dom) (entry : Dict) (k : String)
    (h : k ≠ "dt_testo") :
    dictGetV (formatEntry parse entry) k = dictGetV entry k := by
  unfold formatEntry
  cases hv : dictGetV entry "dt_testo" with
  | none => rfl
  | some v =>
    by_cases ht : pyTruthy v
    · simp [ht, setItem_get_ne entry "dt_testo" _ k h]
    · simp [ht]

/-- C10: `format_ticket_data` returns a list of the same length in the
same order in which each output entry has exactly the keys (with order
and multiplicity) of the corresponding input entry, and every key other
than `dt_testo` maps to its unchanged input value.  (Non-mutation of the
inputs is inherent to the functional model; it mirrors the source's
`entry.copy()` followed by item assignment on the copy only.) -/
theorem C10_format_ticket_data (parse : String → Option Dom) (l : List Dict) :
    (format_ticket_data parse l).length = l.length
    ∧ (∀ i : Nat, ((format_ticket_data parse l)[i]?).map (fun d => d.map Prod.fst) =
        (l[i]?).map (fun d => d.map Prod.fst))
    ∧ (∀ (i : Nat) (k : String), k ≠ "dt_testo" →
        ((format_ticket_data parse l)[i]?).bind (fun d => dictGetV d k) =
          (l[i]?).bind (fun d => dictGetV d k)) := by
  refine ⟨List.length_map _ _, ?_, ?_⟩
  · intro i
    rw [format_ticket_data, List.getElem?_map]
    cases l[i]? with
    | none => rfl
    | some d => simp [formatEntry_keys]
  · intro i k hk
    rw [format_ticket_data, List.getElem?_map]
    cases l[i]? with
    | none => rfl
    | some d => simp [formatEntry_get_ne parse d k hk]

/-- Witness for C10 at a concrete two-key row whose `dt_testo` gets
cleaned (with a failing parse, exercising the fallback). -/
theorem C10_format_ticket_data_witness :
    ((format_ticket_data (fun _ => none)
        [[("ttnumtic", Val.vstr "1"), ("dt_testo", Val.vstr "<b>x</b>")]])[0]?).bind
      (fun d => dictGetV d "ttnumtic") =
      (([[("ttnumtic", Val.vstr "1"), ("dt_testo", Val.vstr "<b>x</b>")]] :
        List Dict)[0]?).bind (fun d => dictGetV d "ttnumtic") :=
  (C10_format_ticket_data (fun _ => none)
    [[("ttnumtic", Val.vstr "1"), ("dt_testo", Val.vstr "<b>x</b>")]]).2.2 0 "ttnumtic"
    (by decide)

/-! ## JSON values

The payloads the tool operations build and serialize with `json.dumps`.
Numbers keep their exact values (`float` results such as the similarity
score are modeled as rationals). -/

inductive Json where
  | str : String → Json
  | num : Int → Json
  | rat : ℚ → Json
  | null : Json
  | arr : List Json → Json
  | obj : List (String × Json) → Json

/-- Key lookup in a JSON object field list. -/
def lookupJ : List (String × Json) → String → Option Json
  | [], _ => none
  | (k, v) :: rest, key => if k = key then some v else lookupJ rest key

/-- Field projection of a JSON object. -/
def jsonField : Json → String → Option Json
  | .obj fields, key => lookupJ fields key
  | _, _ => none

/-! ## Rounding (`round(x, 3)`)

Python's `round` rounds half to even; the floats of the source are
modeled as exact rationals. -/

/-- Round half to even to the nearest integer. -/
def rhe (q : ℚ) : ℤ :=
  if q - ⌊q⌋ = 1 / 2 then (if 2 ∣ ⌊q⌋ then ⌊q⌋ else ⌊q⌋ + 1) else round q

/-- `round(q, 3)`: round half to even at the third decimal. -/
def round3 (q : ℚ) : ℚ := (rhe (q * 1000) : ℚ) / 1000

lemma abs_rhe_sub_le (q : ℚ) : |(rhe q : ℚ) - q| ≤ 1 / 2 := by
  unfold rhe
  by_cases h : q - ⌊q⌋ = 1 / 2
  · have hq : q = (⌊q⌋ : ℚ) + 1 / 2 := by linarith
    by_cases h2 : 2 ∣ ⌊q⌋
    · rw [if_pos h, if_pos h2, abs_le]
      constructor <;> linarith
    · rw [if_pos h, if_neg h2]
      push_cast
      rw [abs_le]
      constructor <;> linarith
  · rw [if_neg h, abs_sub_comm]
    exact abs_sub_round q

lemma round3_bounds {q : ℚ} (h0 : 0 ≤ q) (h1 : q ≤ 1) :
    0 ≤ round3 q ∧ round3 q ≤ 1 := by
  have habs := abs_rhe_sub_le (q * 1000)
  rw [abs_le] at habs
  have hlow : (-1 : ℚ) < (rhe (q * 1000) : ℚ) := by nlinarith
  have hhigh : (rhe (q * 1000) : ℚ) < 1001 := by nlinarith
  have hlow' : (0 : ℤ) ≤ rhe (q * 1000) := by
    have : (-1 : ℤ) < rhe (q * 1000) := by exact_mod_cast hlow
    omega
  have hhigh' : rhe (q * 1000) ≤ 1000 := by
    have : rhe (q * 1000) < 1001 := by exact_mod_cast hhigh
    omega
  constructor
  · unfold round3
    apply div_nonneg _ (by norm_num)
    exact_mod_cast hlow'
  · unfold round3
    rw [div_le_one (by norm_num)]
    exact_mod_cast hhigh'

/-! ## Semantic search (`tools/search.py`) -/

/-- The reply shape of `collection.query`: parallel outer lists (one
entry per query text) of ids, cosine distances, metadata maps and
documents.  Metadata values are strings here. -/
structure ChromaResult where
  ids : List (List String)
  distances : List (List ℚ)
  metadatas : List (List (List (String × String)))
  documents : List (List String)

/-- `metadata.get(key)` on a metadata map. -/
def dictGetS : List (String × String) → String → Option String
  | [], _ => none
  | (k, v) :: rest, key => if k = key then some v else dictGetS rest key

/-- `metadata.get(pref, metadata.get(bare, 'N/A'))` (`search.py` lines
67-70): the flattened-prefixed key takes precedence, then the bare key,
then the literal `"N/A"`. -/
def metaField (m : List (String × String)) (pref bare : String) : String :=
  match dictGetS m pref with
  | some v => v
  | none =>
    match dictGetS m bare with
    | some v => v
    | none => "N/A"

/-- `zip` over the four parallel result lists (truncating to the
shortest, as Python `zip` does). -/
def zip4 {α β γ δ : Type} : List α → List β → List γ → List δ → List (α × β × γ × δ)
  | a :: as, b :: bs, c :: cs, d :: ds => (a, b, c, d) :: zip4 as bs cs ds
  | _, _, _, _ => []

/-- One formatted search result (`search.py` lines 57-88): rank is the
1-based position, similarity is `1 - distance` rounded to 3 decimals,
the four metadata fields use prefixed-then-bare lookup, and the content
preview truncates documents longer than 300 characters, appending
`"..."`. -/
def formatResult (i : Nat) (ticket_id : String) (distance : ℚ)
    (metadata : List (String × String)) (document : String) : Json :=
  let similarity := 1 - distance
  let document_preview : String :=
    if 300 < document.data.length then ⟨document.data.take 300 ++ "...".data⟩ else document
  .obj [("rank", .num ((i : Int) + 1)),
        ("ticket_id", .str ticket_id),
        ("similarity_score", .rat (round3 similarity)),
        ("title", .str (metaField metadata "metadata_title" "title")),
        ("company", .str (metaField metadata "metadata_company" "company")),
        ("date", .str (metaField metadata "metadata_date" "date")),
        ("original_id", .str (metaField metadata "metadata_original_id" "original_id")),
        ("content_preview", .str document_preview),
        ("metadata", .obj (metadata.map (fun p => (p.1, Json.str p.2))))]

/-- The empty-result payload of `search.py` lines 48-54. -/
def emptySearchResponse (query_text : String) : Json :=
  .obj [("status", .str "success"), ("query", .str query_text),
        ("results_count", .num 0), ("results", .arr []),
        ("message", .str "Nessun ticket trovato per la query specificata")]

/-- The error payload of `search.py` lines 102-107. -/
def searchErrorResponse (query_text error error_type : String) : Json :=
  .obj [("status", .str "error"), ("query", .str query_text),
        ("error", .str error), ("error_type", .str error_type)]

/-- The `try` body of `search_similar_tickets` (`search.py` lines
25-98): validation, store query, result formatting.  Failures carry
`(message, exception type)`. -/
def search_core (store : String → Int → Except String ChromaResult)
    (query_text : String) (n_results : Int) : Except (String × String) Json :=
  if query_text = "" ∨ pyStrip query_text = "" then
    .error ("Il testo di ricerca non può essere vuoto", "ValueError")
  else if n_results < 1 ∨ 20 < n_results then
    .error ("Il numero di risultati deve essere tra 1 e 20", "ValueError")
  else
    match store (pyStrip query_text) n_results with
    | .error e => .error (e, "StoreError")
    | .ok results =>
      match results.ids with
      | [] => .ok (emptySearchResponse query_text)
      | ids0 :: _ =>
        if ids0 = [] then .ok (emptySearchResponse query_text)
        else
          match results.distances, results.metadatas, results.documents with
          | d0 :: _, m0 :: _, doc0 :: _ =>
            let formatted := (zip4 ids0 d0 m0 doc0).mapIdx
              (fun i r => formatResult i r.1 r.2.1 r.2.2.1 r.2.2.2)
            .ok (.obj [("status", .str "success"), ("query", .str query_text),
                       ("results_count", .num (formatted.length : Int)),
                       ("results", .arr formatted)])
          | _, _, _ => .error ("list index out of range", "IndexError")

/-- `search_similar_tickets` of `tools/search.py`: the `except` wrapper
converts every internal failure into the structured error payload. -/
def search_similar_tickets (store : String → Int → Except String ChromaResult)
    (query_text : String) (n_results : Int) : Json :=
  match search_core store query_text n_results with
  | .ok j => j
  | .error (e, et) => searchErrorResponse query_text e et

lemma zip4_length {α β γ δ : Type} :
    ∀ (as : List α) (bs : List β) (cs : List γ) (ds : List δ),
      bs.length = as.length → cs.length = as.length → ds.length = as.length →
      (zip4 as bs cs ds).length = as.length := by
  intro as
  induction as with
  | nil =>
    intro bs cs ds hb hc hd
    simp only [List.length_nil, List.length_eq_zero] at hb hc hd
    subst hb; subst hc; subst hd
    rfl
  | cons a as ih =>
    intro bs cs ds hb hc hd
    cases bs with
    | nil => simp at hb
    | cons b bs =>
      cases cs with
      | nil => simp at hc
      | cons c cs =>
        cases ds with
        | nil => simp at hd
        | cons d ds =>
          simp only [List.length_cons] at hb hc hd ⊢
          rw [zip4]
          simp only [List.length_cons]
          rw [ih bs cs ds (by omega) (by omega) (by omega)]

/-- C6: `search_similar_tickets` validates before any store access — for
an empty or whitespace-only query, or `n_results` outside `[1, 20]`, the
result is a `ValueError` (`InvalidQuery`) payload that does not depend
on the store at all — and with valid input and a store reply carrying
`k` results, `results_count` equals `k` (regardless of `n_results`). -/
theorem C6_search_validation :
    (∀ (store store' : String → Int → Except String ChromaResult) (q : String) (n : Int),
      ((q = "" ∨ pyStrip q = "") ∨ n < 1 ∨ 20 < n) →
        search_similar_tickets store q n = search_similar_tickets store' q n
        ∧ jsonField (search_similar_tickets store q n) "status" = some (.str "error")
        ∧ jsonField (search_similar_tickets store q n) "error_type" =
            some (.str "ValueError"))
    ∧ (∀ (store : String → Int → Except String ChromaResult) (q : String) (n : Int)
        (res : ChromaResult) (ids0 : List String) (d0 : List ℚ)
        (m0 : List (List (String × String))) (doc0 : List String),
        ¬(q = "" ∨ pyStrip q = "") → ¬(n < 1 ∨ 20 < n) →
        store (pyStrip q) n = .ok res →
        res.ids = [ids0] → res.distances = [d0] → res.metadatas = [m0] →
        res.documents = [doc0] →
        d0.length = ids0.length → m0.length = ids0.length → doc0.length = ids0.length →
        jsonField (search_similar_tickets store q n) "results_count" =
          some (.num (ids0.length : Int))) := by
  constructor
  · intro store store' q n h
    by_cases hA : q = "" ∨ pyStrip q = ""
    · have e1 : ∀ st : String → Int → Except String ChromaResult,
          search_core st q n =
            .error ("Il testo di ricerca non può essere vuoto", "ValueError") := by
        intro st
        unfold search_core
        rw [if_pos hA]
      refine ⟨?_, ?_, ?_⟩ <;> unfold search_similar_tickets <;> rw [e1] <;> try rw [e1]
      · rfl
      · rfl
    · have hB : n < 1 ∨ 20 < n := h.resolve_left hA
      have e1 : ∀ st : String → Int → Except String ChromaResult,
          search_core st q n =
            .error ("Il numero di risultati deve essere tra 1 e 20", "ValueError") := by
        intro st
        unfold search_core
        rw [if_neg hA, if_pos hB]
      refine ⟨?_, ?_, ?_⟩ <;> unfold search_similar_tickets <;> rw [e1] <;> try rw [e1]
      · rfl
      · rfl
  · intro store q n res ids0 d0 m0 doc0 h1 h2 hs hi hd hm hdoc hld hlm hldoc
    unfold search_similar_tickets search_core
    rw [if_neg h1, if_neg h2, hs]
    simp only [hi, hd, hm, hdoc]
    cases hids : ids0 with
    | nil => rfl
    | cons i0 irest =>
      rw [if_neg (by simp)]
      show some (Json.num ((((zip4 (i0 :: irest) d0 m0 doc0).mapIdx
        (fun i r => formatResult i r.1 r.2.1 r.2.2.1 r.2.2.2)).length : Nat) : Int)) = _
      rw [List.length_mapIdx,
        zip4_length (i0 :: irest) d0 m0 doc0 (hids ▸ hld) (hids ▸ hlm) (hids ▸ hldoc)]

/-- Witness for C6: an invalid call (`n_results = 0`) is independent of
the store and yields a `ValueError` payload; a valid call with
`n_results = 5` against a store returning 3 documents reports
`results_count = 3`. -/
theorem C6_search_validation_witness :
    (search_similar_tickets (fun _ _ => .ok ⟨[], [], [], []⟩) "ciao" 0 =
        search_similar_tickets (fun _ _ => .error "down") "ciao" 0
      ∧ jsonField (search_similar_tickets (fun _ _ => .ok ⟨[], [], [], []⟩) "ciao" 0)
          "status" = some (.str "error")
      ∧ jsonField (search_similar_tickets (fun _ _ => .ok ⟨[], [], [], []⟩) "ciao" 0)
          "error_type" = some (.str "ValueError"))
    ∧ jsonField (search_similar_tickets
        (fun _ _ => .ok ⟨[["a", "b", "c"]], [[0, 0, 0]], [[[], [], []]], [["x", "y", "z"]]⟩)
        "ciao" 5) "results_count" = some (.num (3 : Int)) :=
  ⟨C6_search_validation.1 (fun _ _ => .ok ⟨[], [], [], []⟩) (fun _ _ => .error "down")
      "ciao" 0 (Or.inr (Or.inl (by norm_num))),
   C6_search_validation.2
     (fun _ _ => .ok ⟨[["a", "b", "c"]], [[0, 0, 0]], [[[], [], []]], [["x", "y", "z"]]⟩)
     "ciao" 5 ⟨[["a", "b", "c"]], [[0, 0, 0]], [[[], [], []]], [["x", "y", "z"]]⟩
     ["a", "b", "c"] [0, 0, 0] [[], [], []] ["x", "y", "z"]
     (by decide) (by norm_num) rfl rfl rfl rfl rfl rfl rfl rfl⟩

/-- C5 (amended): every formatted search result carries
`similarity_score = round3 (1 - distance)`; the score lies in `[0, 1]`
whenever the store-returned cosine distance lies in `[0, 1]` (the code
does not clamp, see `C5_counterexample`); distance `0` gives score `1`
and distance `1` gives score `0`. -/
theorem C5_similarity_score :
    (∀ (i : Nat) (tid : String) (d : ℚ) (m : List (String × String)) (doc : String),
      jsonField (formatResult i tid d m doc) "similarity_score" =
        some (.rat (round3 (1 - d))))
    ∧ (∀ d : ℚ, 0 ≤ d → d ≤ 1 → 0 ≤ round3 (1 - d) ∧ round3 (1 - d) ≤ 1)
    ∧ round3 (1 - 0) = 1
    ∧ round3 (1 - 1) = 0 := by
  refine ⟨fun i tid d m doc => rfl,
    fun d h0 h1 => round3_bounds (by linarith) (by linarith), ?_, ?_⟩
  · norm_num [round3, rhe, round_eq]
  · norm_num [round3, rhe, round_eq]

/-- Witness for C5 at distance `1/2`. -/
theorem C5_similarity_score_witness :
    0 ≤ round3 (1 - 1 / 2) ∧ round3 (1 - 1 / 2) ≤ 1 :=
  C5_similarity_score.2.1 (1 / 2) (by norm_num) (by norm_num)

/-- Counterexample to C5 as stated: a store-returned cosine distance of
`3/2` (cosine distance ranges over `[0, 2]`) yields
`similarity_score = -1/2`, outside `[0, 1]` — the code never clamps. -/
theorem C5_counterexample :
    jsonField (search_similar_tickets
        (fun _ _ => .ok ⟨[["t1"]], [[3 / 2]], [[[("title", "T")]]], [["doc"]]⟩) "q" 5)
      "results" = some (.arr [formatResult 0 "t1" (3 / 2) [("title", "T")] "doc"])
    ∧ jsonField (formatResult 0 "t1" (3 / 2) [("title", "T")] "doc") "similarity_score" =
        some (.rat (round3 (1 - 3 / 2)))
    ∧ round3 (1 - 3 / 2) = -(1 / 2)
    ∧ ¬(0 ≤ round3 (1 - 3 / 2)) := by
  have hval : round3 (1 - 3 / 2) = -(1 / 2) := by
    norm_num [round3, rhe, round_eq]
  refine ⟨rfl, rfl, hval, ?_⟩
  rw [hval]
  norm_num

/-- C8: in search result formatting, each of the four metadata fields
uses the flattened-prefixed key when present, otherwise the bare key,
otherwise the literal `"N/A"` — prefixed form taking precedence. -/
theorem C8_metadata_lookup :
    (∀ (m : List (String × String)) (pref bare v : String),
      dictGetS m pref = some v → metaField m pref bare = v)
    ∧ (∀ (m : List (String × String)) (pref bare v : String),
        dictGetS m pref = none → dictGetS m bare = some v → metaField m pref bare = v)
    ∧ (∀ (m : List (String × String)) (pref bare : String),
        dictGetS m pref = none → dictGetS m bare = none → metaField m pref bare = "N/A")
    ∧ (∀ (i : Nat) (tid : String) (d : ℚ) (m : List (String × String)) (doc : String),
        jsonField (formatResult i tid d m doc) "title" =
          some (.str (metaField m "metadata_title" "title"))
        ∧ jsonField (formatResult i tid d m doc) "company" =
          some (.str (metaField m "metadata_company" "company"))
        ∧ jsonField (formatResult i tid d m doc) "date" =
          some (.str (metaField m "metadata_date" "date"))
        ∧ jsonField (formatResult i tid d m doc) "original_id" =
          some (.str (metaField m "metadata_original_id" "original_id"))) := by
  refine ⟨?_, ?_, ?_, fun i tid d m doc => ⟨rfl, rfl, rfl, rfl⟩⟩
  · intro m pref bare v h
    unfold metaField
    rw [h]
  · intro m pref bare v h1 h2
    unfold metaField
    rw [h1, h2]
  · intro m pref bare h1 h2
    unfold metaField
    rw [h1, h2]

/-- Witness for C8: both keys present picks the prefixed value, bare key
only picks the bare value, neither gives `"N/A"`. -/
theorem C8_metadata_lookup_witness :
    metaField [("metadata_title", "P"), ("title", "B")] "metadata_title" "title" = "P"
    ∧ metaField [("title", "B")] "metadata_title" "title" = "B"
    ∧ metaField [] "metadata_title" "title" = "N/A" :=
  ⟨C8_metadata_lookup.1 [("metadata_title", "P"), ("title", "B")] "metadata_title" "title"
      "P" rfl,
   C8_metadata_lookup.2.1 [("title", "B")] "metadata_title" "title" "B" rfl rfl,
   C8_metadata_lookup.2.2.1 [] "metadata_title" "title" rfl rfl⟩

/-! ## Direct ticket lookup (`tools/get_ticket.py`) -/

/-- `entry['dt__data'].isoformat()`: render a date object as its ISO
string.  (`dt__data` is a date column, so the truthy value here is a
date; other constructors are returned unchanged.) -/
def isoformatVal : Val → Val
  | .vdate s => .vstr s
  | v => v

/-- `convert_decimals` on a single value (`get_ticket.py` lines 16-24):
`Decimal` becomes `float`. -/
def convertDecimal : Val → Val
  | .vdec q => .vfloat q
  | v => v

/-- `convert_decimals` on a row dictionary. -/
def convertDecimalsDict (d : Dict) : Dict := d.map (fun p => (p.1, convertDecimal p.2))

/-- Building one response entry from a row (`get_ticket.py` lines
93-100): copy the row, render a truthy `dt__data` with `isoformat`, and
convert decimals. -/
def mkEntry (row : Dict) : Dict :=
  let entry :=
    match dictGetV row "dt__data" with
    | some v => if pyTruthy v then setItem row "dt__data" (isoformatVal v) else row
    | none => row
  convertDecimalsDict entry

/-- The entry-building loop of `get_ticket.py` lines 91-103, including
the source's indentation slip: the `format_ticket_data` call at line 103
sits inside the `for` body, so after appending each entry the whole
accumulated list is re-formatted (cleaning earlier entries once more per
remaining row). -/
def ticketEntriesFold (parse : String → Option Dom) (rows : List Dict) : List Dict :=
  rows.foldl (fun acc row => format_ticket_data parse (acc ++ [mkEntry row])) []

/-- JSON rendering of a value (`json.dumps`): `convert_decimals` and the
`isoformat` fix have removed `Decimal` and date objects from everything
that reaches serialization, so those constructors render through their
converted forms. -/
def valToJson : Val → Json
  | .vstr s => .str s
  | .vint n => .num n
  | .vfloat q => .rat q
  | .vdec q => .rat q
  | .vdate s => .str s
  | .vnull => .null

/-- JSON rendering of a row dictionary. -/
def dictToJson (d : Dict) : Json := .obj (d.map (fun p => (p.1, valToJson p.2)))

/-- The not-found payload of `get_ticket.py` lines 81-88. -/
def ticketNotFoundResponse (ticket_id : String) (number : List Char) (year : Nat) : Json :=
  .obj [("status", .str "error"), ("ticket_id", .str ticket_id),
        ("parsed_number", .str ⟨number⟩), ("parsed_year", .num (year : Int)),
        ("error", .str ("Ticket " ++ String.mk number ++ " non trovato per l\x27anno "
          ++ toString year)),
        ("error_code", .str "TICKET_NOT_FOUND")]

/-- The generic error payload of `get_ticket.py` lines 126-131. -/
def genericErrorResponse (ticket_id error error_type : String) : Json :=
  .obj [("status", .str "error"), ("ticket_id", .str ticket_id),
        ("error", .str error), ("error_type", .str error_type)]

/-- The success payload of `get_ticket.py` lines 106-118 (the
response-level `convert_decimals` of line 116 runs over the already
converted entries once more). -/
def ticketSuccessResponse (ticket_id : String) (number : List Char) (year : Nat)
    (entries : List Dict) : Json :=
  .obj [("status", .str "success"), ("ticket_id", .str ticket_id),
        ("parsed_number", .str ⟨number⟩), ("parsed_year", .num (year : Int)),
        ("entries_count", .num (entries.length : Int)),
        ("ticket_data", .arr (entries.map (fun e => dictToJson (convertDecimalsDict e))))]

/-- The `try` body of `get_ticket_by_id` (`get_ticket.py` lines 38-121):
validate, parse the identifier, run the year-bounded query (modeled as
`db number year`, the rows the relational store returns for the parsed
pair), and build the structured payload.  Failures carry
`(message, exception type)`. -/
def get_ticket_core (parse : String → Option Dom)
    (db : List Char → Nat → Except String (List Dict)) (currentYear : Nat)
    (ticket_id : String) : Except (String × String) Json :=
  if ticket_id = "" ∨ pyStrip ticket_id = "" then
    .error ("L\x27ID del ticket non può essere vuoto", "ValueError")
  else
    match parse_ticket_id currentYear (pyStrip ticket_id).data with
    | none =>
      .error ("Formato ticket ID non riconosciuto: " ++ pyStrip ticket_id, "ValueError")
    | some (number, year) =>
      match db number year with
      | .error e => .error (e, "StoreError")
      | .ok rows =>
        if rows = [] then .ok (ticketNotFoundResponse ticket_id number year)
        else .ok (ticketSuccessResponse ticket_id number year (ticketEntriesFold parse rows))

/-- `get_ticket_by_id` of `tools/get_ticket.py`: the `except` wrapper of
lines 123-133 converts every internal failure into the structured error
payload. -/
def get_ticket_by_id (parse : String → Option Dom)
    (db : List Char → Nat → Except String (List Dict)) (currentYear : Nat)
    (ticket_id : String) : Json :=
  match get_ticket_core parse db currentYear ticket_id with
  | .ok j => j
  | .error (e, et) => genericErrorResponse ticket_id e et

lemma get_ticket_core_ok_status (parse : String → Option Dom)
    (db : List Char → Nat → Except String (List Dict)) (cy : Nat) (tid : String)
    (j : Json) (h : get_ticket_core parse db cy tid = .ok j) :
    jsonField j "status" = some (.str "success") ∨ jsonField j "status" = some (.str "error") := by
  unfold get_ticket_core at h
  by_cases h1 : tid = "" ∨ pyStrip tid = ""
  · rw [if_pos h1] at h
    simp at h
  · rw [if_neg h1] at h
    cases hp : parse_ticket_id cy (pyStrip tid).data with
    | none => simp [hp] at h
    | some r =>
      obtain ⟨number, year⟩ := r
      simp only [hp] at h
      cases hdb : db number year with
      | error e => simp [hdb] at h
      | ok rows =>
        simp only [hdb] at h
        by_cases hr : rows = []
        · rw [if_pos hr] at h
          cases h
          exact Or.inr rfl
        · rw [if_neg hr] at h
          cases h
          exact Or.inl rfl

lemma search_core_ok_status (store : String → Int → Except String ChromaResult)
    (q : String) (n : Int) (j : Json) (h : search_core store q n = .ok j) :
    jsonField j "status" = some (.str "success") ∨ jsonField j "status" = some (.str "error") := by
  unfold search_core at h
  by_cases h1 : q = "" ∨ pyStrip q = ""
  · rw [if_pos h1] at h
    simp at h
  · rw [if_neg h1] at h
    by_cases h2 : n < 1 ∨ 20 < n
    · rw [if_pos h2] at h
      simp at h
    · rw [if_neg h2] at h
      cases hs : store (pyStrip q) n with
      | error e => simp [hs] at h
      | ok res =>
        simp only [hs] at h
        cases hi : res.ids with
        | nil =>
          simp only [hi] at h
          cases h
          exact Or.inl rfl
        | cons ids0 irest =>
          simp only [hi] at h
          by_cases hz : ids0 = []
          · rw [if_pos hz] at h
            cases h
            exact Or.inl rfl
          · rw [if_neg hz] at h
            cases hd : res.distances with
            | nil =>
              cases hm : res.metadatas <;> cases hdoc : res.documents <;>
                simp [hd, hm, hdoc] at h
            | cons d0 drest =>
              cases hm : res.metadatas with
              | nil => cases hdoc : res.documents <;> simp [hd, hm, hdoc] at h
              | cons m0 mrest =>
                cases hdoc : res.documents with
                | nil => simp [hd, hm, hdoc] at h
                | cons doc0 docrest =>
                  simp only [hd, hm, hdoc] at h
                  cases h
                  exact Or.inl rfl

/-- C3: the two tool operations always resolve to a structured JSON
payload whose `status` is `"success"` or `"error"` — every internal
failure is converted by the `except` wrapper into the structured error
object — and when the relational query matches zero rows,
`get_ticket_by_id` returns the structured not-found payload with
`error_code = "TICKET_NOT_FOUND"` instead of raising. -/
theorem C3_tool_boundary :
    (∀ (parse : String → Option Dom) (db : List Char → Nat → Except String (List Dict))
        (cy : Nat) (tid : String),
      jsonField (get_ticket_by_id parse db cy tid) "status" = some (.str "success")
      ∨ jsonField (get_ticket_by_id parse db cy tid) "status" = some (.str "error"))
    ∧ (∀ (store : String → Int → Except String ChromaResult) (q : String) (n : Int),
      jsonField (search_similar_tickets store q n) "status" = some (.str "success")
      ∨ jsonField (search_similar_tickets store q n) "status" = some (.str "error"))
    ∧ (∀ parse db cy tid e et, get_ticket_core parse db cy tid = .error (e, et) →
        get_ticket_by_id parse db cy tid = genericErrorResponse tid e et)
    ∧ (∀ store q n e et, search_core store q n = .error (e, et) →
        search_similar_tickets store q n = searchErrorResponse q e et)
    ∧ (∀ (parse : String → Option Dom) (db : List Char → Nat → Except String (List Dict))
        (cy : Nat) (tid : String) (number : List Char) (year : Nat),
        ¬(tid = "" ∨ pyStrip tid = "") →
        parse_ticket_id cy (pyStrip tid).data = some (number, year) →
        db number year = .ok [] →
        get_ticket_by_id parse db cy tid = ticketNotFoundResponse tid number year
        ∧ jsonField (get_ticket_by_id parse db cy tid) "error_code" =
            some (.str "TICKET_NOT_FOUND")) := by
  refine ⟨?_, ?_, ?_, ?_, ?_⟩
  · intro parse db cy tid
    unfold get_ticket_by_id
    cases h : get_ticket_core parse db cy tid with
    | ok j => exact get_ticket_core_ok_status parse db cy tid j h
    | error e =>
      obtain ⟨e, et⟩ := e
      exact Or.inr rfl
  · intro store q n
    unfold search_similar_tickets
    cases h : search_core store q n with
    | ok j => exact search_core_ok_status store q n j h
    | error e =>
      obtain ⟨e, et⟩ := e
      exact Or.inr rfl
  · intro parse db cy tid e et h
    unfold get_ticket_by_id
    rw [h]
  · intro store q n e et h
    unfold search_similar_tickets
    rw [h]
  · intro parse db cy tid number year h1 hp hdb
    have hcore : get_ticket_core parse db cy tid =
        .ok (ticketNotFoundResponse tid number year) := by
      unfold get_ticket_core
      rw [if_neg h1]
      simp [hp, hdb]
    constructor
    · unfold get_ticket_by_id
      rw [hcore]
    · unfold get_ticket_by_id
      rw [hcore]
      rfl

/-- Witness for C3: the identifier `"12/2024"` with an empty query
result produces the not-found payload. -/
theorem C3_tool_boundary_witness :
    get_ticket_by_id (fun _ => none) (fun _ _ => .ok []) 2025 "12/2024" =
        ticketNotFoundResponse "12/2024" "12".data 2024
      ∧ jsonField (get_ticket_by_id (fun _ => none) (fun _ _ => .ok []) 2025 "12/2024")
          "error_code" = some (.str "TICKET_NOT_FOUND") :=
  C3_tool_boundary.2.2.2.2 (fun _ => none) (fun _ _ => .ok []) 2025 "12/2024" "12".data
    2024 (by decide) rfl rfl

/-! ## Ingestion document assembly (`PY_Scripts/clean_html.py`,
`process_tickets` lines 117-165)

The file loading and output writing around the per-record loop are not
modeled; records enter as structured rows.  `iso` models
`datetime.fromisoformat(·).year`, the external standard-library parser
(`some year` on success, `none` when it raises). -/

/-- One raw ticket record (keys `ttnumtic`, `ttshotxt`, `cotitle`,
`dt_testo`, `dt__data` read at lines 120-124). -/
structure RawTicket where
  ttnumtic : String
  ttshotxt : String
  cotitle : String
  dt_testo : String
  dt__data : String

/-- `date_str.replace('Z', '+00:00')` (line 136): every `Z` is
replaced. -/
def replaceZ (s : String) : String :=
  ⟨(s.data.map (fun c => if c = 'Z' then "+00:00".data else [c])).flatten⟩

/-- `date_str.split('T')[0] if 'T' in date_str else date_str`
(line 151). -/
def splitT (s : String) : String :=
  if 'T' ∈ s.data then ⟨s.data.takeWhile (fun c => !(c == 'T'))⟩ else s

/-- The year extraction of lines 132-139: default `"2024"`; a truthy
(non-empty) `dt__data` is parsed as ISO-8601 after the `Z` replacement,
the parse failure being swallowed by the bare `except: pass`. -/
def ingestYear (iso : String → Option Int) (date_str : String) : String :=
  if date_str = "" then "2024"
  else
    match iso (replaceZ date_str) with
    | some y => toString y
    | none => "2024"

/-- One assembled ingestion document (lines 141-155).  The `text` field
(normalizer output fed through `preprocess_text`) is not modeled: no
claim concerns it, and `preprocess_text` cannot raise, so its omission
does not affect which records are skipped. -/
structure IngestDoc where
  id : String
  title : String
  company : String
  date : String
  year : String
  original_id : String

/-- The body of one iteration of the ingestion loop (lines 118-157).
The HTML cleanup is the lenient normalizer, whose only failure is a
parser exception; such a failure escapes to the per-record `except`
(lines 163-165), which logs and skips the record. -/
def processRecord (parse : String → Option Dom) (iso : String → Option Int)
    (t : RawTicket) : Except String IngestDoc :=
  match CleanHtml.clean_html_content parse t.dt_testo with
  | .error e => .error e
  | .ok _cleanText =>
    let year := ingestYear iso t.dt__data
    .ok { id := t.ttnumtic ++ "/SPC-" ++ year
        , title := t.ttshotxt
        , company := t.cotitle
        , date := splitT t.dt__data
        , year := year
        , original_id := t.ttnumtic }

/-- `process_tickets` on a batch of records: each record is processed,
failing records are logged and skipped, and the batch continues. -/
def process_tickets (parse : String → Option Dom) (iso : String → Option Int)
    (tickets : List RawTicket) : List IngestDoc :=
  tickets.filterMap (fun t => (processRecord parse iso t).toOption)

/-- C7: every ingested document's id is
`"{ticket_number}/SPC-{year}"` with the year parsed from the record's
ISO-8601 date (after the `Z` → `+00:00` replacement) and defaulting to
`"2024"` when the date is missing or unparsable (the failure being
swallowed); a record whose processing raises is skipped and the batch
continues with the remaining records. -/
theorem C7_ingestion_ids :
    (∀ (parse : String → Option Dom) (iso : String → Option Int) (t : RawTicket)
        (d : IngestDoc), processRecord parse iso t = .ok d →
      d.id = t.ttnumtic ++ "/SPC-" ++ ingestYear iso t.dt__data)
    ∧ (∀ (parse : String → Option Dom) (iso : String → Option Int) (t : RawTicket)
        (d : IngestDoc), t.dt__data ≠ "" → iso (replaceZ t.dt__data) = none →
        processRecord parse iso t = .ok d → d.id = t.ttnumtic ++ "/SPC-" ++ "2024")
    ∧ (∀ (parse : String → Option Dom) (iso : String → Option Int)
        (ts1 ts2 : List RawTicket) (t : RawTicket),
        (processRecord parse iso t).toOption = none →
        process_tickets parse iso (ts1 ++ t :: ts2) =
          process_tickets parse iso ts1 ++ process_tickets parse iso ts2) := by
  have hid : ∀ (parse : String → Option Dom) (iso : String → Option Int) (t : RawTicket)
      (d : IngestDoc), processRecord parse iso t = .ok d →
      d.id = t.ttnumtic ++ "/SPC-" ++ ingestYear iso t.dt__data := by
    intro parse iso t d h
    unfold processRecord at h
    cases hc : CleanHtml.clean_html_content parse t.dt_testo with
    | error e => simp [hc] at h
    | ok ct =>
      simp only [hc] at h
      cases h
      rfl
  refine ⟨hid, ?_, ?_⟩
  · intro parse iso t d hne hiso h
    have := hid parse iso t d h
    rwa [ingestYear, if_neg hne, hiso] at this
  · intro parse iso ts1 ts2 t h
    unfold process_tickets
    rw [List.filterMap_append, List.filterMap_cons, h]

/-- Witness for C7: with a parser that always fails and an ISO parser
that always fails, the record with empty body and unparsable date is
ingested with year `"2024"`, while the record with a non-empty body is
skipped and the batch continues. -/
theorem C7_ingestion_ids_witness :
    process_tickets (fun _ => none) (fun _ => none)
        ([⟨"7", "t", "c", "", "not-a-date"⟩] ++
          ⟨"9", "t", "c", "<b>x</b>", "2020-01-01"⟩ ::
          [⟨"8", "t", "c", "", "2020-01-01"⟩]) =
      process_tickets (fun _ => none) (fun _ => none) [⟨"7", "t", "c", "", "not-a-date"⟩]
        ++ process_tickets (fun _ => none) (fun _ => none) [⟨"8", "t", "c", "", "2020-01-01"⟩]
    ∧ (processRecord (fun _ => none) (fun _ => none) ⟨"7", "t", "c", "", "not-a-date"⟩ =
        .ok ⟨"7/SPC-2024", "t", "c", "not-a-date", "2024", "7"⟩
      ∧ ("7/SPC-2024" : String) = "7" ++ "/SPC-" ++ "2024") :=
  ⟨C7_ingestion_ids.2.2 (fun _ => none) (fun _ => none)
      [⟨"7", "t", "c", "", "not-a-date"⟩] [⟨"8", "t", "c", "", "2020-01-01"⟩]
      ⟨"9", "t", "c", "<b>x</b>", "2020-01-01"⟩ rfl,
   rfl,
   C7_ingestion_ids.2.1 (fun _ => none) (fun _ => none)
     ⟨"7", "t", "c", "", "not-a-date"⟩ ⟨"7/SPC-2024", "t", "c", "not-a-date", "2024", "7"⟩
     (by decide) rfl rfl⟩

end TicketServer
